import Mathlib

/-!
Verification development for the app-pass dependency-path resolution and
repair engine (`src/app_pass`).  The Python code is shallowly embedded:
`pathlib.PurePosixPath` values become `PyPath` (an absolute flag plus the
list of parts), raising Python code becomes `Except PyErr`, and the
`functools.partial` repair callbacks attached to issues become declarative
`FixOp` values.  All definitions are translated from `_app.py`,
`_issues.py` and `_commands.py`; the few helpers that live outside the
sources (the `Build` metadata predicates of `_macho.py`) are modelled from
the specification and marked as such.
-/

set_option autoImplicit false

namespace AppPass

/-- Embedding of Python `pathlib.PurePosixPath`: an absoluteness flag and the
list of path components (`parts`, without the root anchor).  `Path(".")` has
empty `parts`; parsing drops `""` and `"."` components, keeps `".."`. -/
structure PyPath where
  absolute : Bool
  parts : List String
deriving DecidableEq

/-- Bool test that `pat` starts the list (component-wise equality). -/
def listStartsWith : List String → List String → Bool
  | [], _ => true
  | _ :: _, [] => false
  | a :: as, b :: bs => (a == b) && listStartsWith as bs

/-- `Path.is_relative_to`: same anchor and the other path's parts are a
prefix of ours. -/
def pyIsRelativeTo (p q : PyPath) : Bool :=
  (p.absolute == q.absolute) && listStartsWith q.parts p.parts

/-- `Path.relative_to`: drop the prefix; `none` models the `ValueError`
Python raises when `q` is not a prefix of `p`. -/
def pyRelativeTo (p q : PyPath) : Option PyPath :=
  if pyIsRelativeTo p q then some ⟨false, p.parts.drop q.parts.length⟩ else none

/-- The `/` operator of `pathlib`: an absolute right operand replaces the
left one, otherwise parts are concatenated. -/
def pyJoin (p q : PyPath) : PyPath :=
  if q.absolute then q else ⟨p.absolute, p.parts ++ q.parts⟩

/-- `Path.name`: the final component, `""` for `/` and `.`. -/
def pyName (p : PyPath) : String :=
  p.parts.getLast?.getD ""

/-- `Path.parent`: all but the final component. -/
def pyParent (p : PyPath) : PyPath :=
  ⟨p.absolute, p.parts.dropLast⟩

/-- `Path.parents`: the ancestors, nearest first, ending at `.` (or `/`). -/
def pyParents (p : PyPath) : List PyPath :=
  (List.range p.parts.length).map
    (fun k => ⟨p.absolute, p.parts.take (p.parts.length - 1 - k)⟩)

/-- `str(Path)`: `/`-joined parts with anchor; `.` for an empty relative
path. -/
def strPath (p : PyPath) : String :=
  if p.absolute then "/" ++ String.intercalate "/" p.parts
  else if p.parts.isEmpty then "." else String.intercalate "/" p.parts

/-- Bool test that `pat` starts the character list. -/
def charsStartWith : List Char → List Char → Bool
  | [], _ => true
  | _ :: _, [] => false
  | a :: as, b :: bs => (a == b) && charsStartWith as bs

/-- Bool test that `pat` occurs somewhere in the character list
(the Python `in` operator on strings). -/
def charsContain (pat : List Char) : List Char → Bool
  | [] => charsStartWith pat []
  | c :: rest => charsStartWith pat (c :: rest) || charsContain pat rest

/-- Python `pat in s` for strings. -/
def strContains (s pat : String) : Bool :=
  charsContain pat.data s.data

/-- Remove every (left-to-right, non-overlapping) occurrence of `pat`; the
fuel argument makes the recursion structural.  With fuel `s.length` it
implements Python `s.replace(pat, "")` for non-empty `pat`. -/
def listReplaceFuel (pat : List Char) : Nat → List Char → List Char
  | _, [] => []
  | 0, s => s
  | fuel + 1, c :: rest =>
    if charsStartWith pat (c :: rest) then
      match pat with
      | [] => c :: listReplaceFuel pat fuel rest
      | _ :: ps => listReplaceFuel pat fuel (rest.drop ps.length)
    else c :: listReplaceFuel pat fuel rest

/-- Python `s.replace(pat, "")`. -/
def pyReplace (s pat : String) : String :=
  String.mk (listReplaceFuel pat.data s.data.length s.data)

/-- Split a character list on `/` (helper for parsing a path string). -/
def splitSlashAux : List Char → List Char → List String
  | acc, [] => [String.mk acc.reverse]
  | acc, c :: rest =>
    if c == '/' then String.mk acc.reverse :: splitSlashAux [] rest
    else splitSlashAux (c :: acc) rest

/-- `Path(s)`: parse a string into a `PyPath`, dropping empty and `"."`
components as `pathlib` does. -/
def pyParse (s : String) : PyPath :=
  { absolute := charsStartWith ['/'] s.data,
    parts := (splitSlashAux [] s.data).filter (fun c => !(c == "") && !(c == ".")) }

/-- The Python exceptions raised by `_app.py`, one constructor per `raise`
or `assert` site (parameters mirror the data interpolated into the
message). -/
inductive PyErr where
  /-- `assert libname in self.libraries` in `lib_loader_relative`. -/
  | assertLibInLibraries
  /-- `assert len(filtered) == 1` in `bundle_exe_rpaths`. -/
  | assertOneBundleExe
  /-- `assert not rpath.is_absolute()` in `fix_path_pointer`. -/
  | assertRpathNotAbsolute
  /-- `ValueError` from `Path.relative_to` (path, base). -/
  | relativeToValueError (p base : PyPath)
  /-- `Could not determine loader relative path for {lib_path} in {root}`. -/
  | couldNotDetermineLoaderRelative (lib_path root : PyPath)
  /-- `{rpaths} in {path} need fixing, may not be absolute.` -/
  | rpathsMayNotBeAbsolute (rpaths : List PyPath) (path : PyPath)
  /-- `Didn't really expect a relative path with @rpath, ...` (the dead
  third branch of the rpath dispatch). -/
  | unexpectedRpathEntry
  /-- `Could not resolve rc_path - probably not valid {path}`. -/
  | couldNotResolveRcPath (path : PyPath)
deriving DecidableEq

/-- `Build` metadata.  Modelled from the spec: the `Build` class of
`_macho.py` is not under `src/`, only its use sites in `_app.py` are.  Per
the spec it carries the target platform, minimum-OS and SDK versions, a
minimum-OS validity predicate and a can-safely-overwrite predicate; the two
predicates are recorded as boolean outcomes. -/
structure Build where
  platform : String
  minos : String
  sdk : String
  is_valid : Bool
  can_fix : Bool
deriving DecidableEq

/-- Modelled from the spec: `Build.valid_build(default)` produces the
bundle's configured default build metadata, with which an invalid-but-
fixable build record is overwritten (`_macho.py` is not under `src/`). -/
def Build.valid_build (_b default_build : Build) : Build :=
  default_build

/-- One parsed Mach-O binary as used by the checks in `_app.py`: its path,
optional identity (`id_`), dependency load commands (`dylibs`), search-path
entries (`rpaths`) and optional build metadata.  (The `header` field of
`_macho.MachOBinary` is not consulted by any check and is omitted.) -/
structure MachOBinary where
  path : PyPath
  id_ : Option PyPath := none
  dylibs : List PyPath := []
  rpaths : List PyPath := []
  build : Option Build := none
deriving DecidableEq

/-- The repair operation attached to a fixable issue.  `_app.py` attaches
`functools.partial` applications of the `_macho.py` mutation helpers; each
constructor records one such helper with its frozen arguments. -/
inductive FixOp where
  | fix_lib_id (bin new_id : PyPath)
  | fix_load_path (bin old new : PyPath)
  | fix_rpath (bin old new : PyPath)
  | remove_rpath (bin entry : PyPath)
  | vtool_overwrite (bin : PyPath) (b : Build)
deriving DecidableEq

/-- The `Issue` subclass used for a finding (`LibraryPathIssue`,
`RcpathIssue`, `BuildIssue` in `_app.py`). -/
inductive IssueCat where
  | libraryPath
  | rcpath
  | buildMeta
deriving DecidableEq

/-- `_issues.Issue`: fixability flag, detail string and optional repair
operation. -/
structure Issue where
  cat : IssueCat
  fixable : Bool
  details : String
  fix : Option FixOp := none
deriving DecidableEq

/-- `_app.OSXAPP`: bundle root, loader directory (directory of the main
executable), main executable path, the parsed Mach-O binaries and the
default build metadata.  (The `jars` list is irrelevant to the claims
and omitted.) -/
structure OSXAPP where
  root : PyPath
  loader_path : PyPath
  bundle_exe : PyPath
  macho_binaries : List MachOBinary
  default_build : Build :=
    { platform := "macos", minos := "11.0", sdk := "11.0",
      is_valid := true, can_fix := true }
deriving DecidableEq

/-- `_ALLOWED_SPECIAL`: the three bundle-relative tokens. -/
def ALLOWED_SPECIAL : List PyPath :=
  [⟨false, ["@rpath"]⟩, ⟨false, ["@executable_path"]⟩, ⟨false, ["@loader_path"]⟩]

/-- `_ALLOWED_SYSTEM`: the OS-provided prefixes. -/
def ALLOWED_SYSTEM : List PyPath :=
  [⟨true, ["System"]⟩, ⟨true, ["usr"]⟩, ⟨true, ["Library"]⟩]

/-- The classification test `any(path.is_relative_to(x) for x in
_ALLOWED_SYSTEM + _ALLOWED_SPECIAL)` shared by all checks. -/
def isAllowed (p : PyPath) : Bool :=
  (ALLOWED_SYSTEM ++ ALLOWED_SPECIAL).any (fun x => pyIsRelativeTo p x)

/-- `OSXAPP.libraries[name]`: the dict comprehension
`{x.path.name: x for x in self.macho_binaries}` — a later binary with the
same file name overwrites an earlier one. -/
def OSXAPP.libraries (app : OSXAPP) (name : String) : Option MachOBinary :=
  app.macho_binaries.foldl
    (fun acc x => if pyName x.path = name then some x else acc) none

/-- The validation `__post_init__` performs at `OSXAPP` construction that
is expressible over paths: `assert self.bundle_exe.is_relative_to(self.root)`
(the `exists()`/`is_file()` asserts are filesystem effects outside the
path model).  Note it does not consult any binary's search paths. -/
def postInitCheck (app : OSXAPP) : Bool :=
  pyIsRelativeTo app.bundle_exe app.root

/-- The candidate-scanning loop of `OSXAPP.lib_loader_relative`: for the
`i`-th candidate ancestor of the loader directory, if the library path lies
under `root / candidate`, build `@loader_path / ("../" * i) / remainder`. -/
def findLoaderRel (root lib_path : PyPath) : Nat → List PyPath → Option PyPath
  | _, [] => none
  | i, c :: cs =>
    if pyIsRelativeTo lib_path (pyJoin root c) then
      some (pyJoin (pyJoin ⟨false, ["@loader_path"]⟩ ⟨false, List.replicate i ".."⟩)
        ⟨false, lib_path.parts.drop (pyJoin root c).parts.length⟩)
    else findLoaderRel root lib_path (i + 1) cs

/-- `OSXAPP.lib_loader_relative`: express a bundle library's location
relative to the main executable's directory via `@loader_path`. -/
def OSXAPP.lib_loader_relative (app : OSXAPP) (libname : String) :
    Except PyErr PyPath :=
  match app.libraries libname with
  | none => .error .assertLibInLibraries
  | some lib =>
    match pyRelativeTo app.loader_path app.root with
    | none => .error (.relativeToValueError app.loader_path app.root)
    | some loader_root_relative =>
      match findLoaderRel app.root lib.path 0
          (loader_root_relative :: pyParents loader_root_relative) with
      | some p => .ok p
      | none => .error (.couldNotDetermineLoaderRelative lib.path app.root)

/-- `OSXAPP.bundle_exe_rpaths`: the main executable's own search-path
entries; raises if the executable is not found exactly once among the
binaries or if any entry is absolute. -/
def OSXAPP.bundle_exe_rpaths (app : OSXAPP) : Except PyErr (List PyPath) :=
  match app.macho_binaries.filter (fun x => decide (x.path = app.bundle_exe)) with
  | [bundle_exe_macho] =>
    if bundle_exe_macho.rpaths.any (fun rc => rc.absolute) then
      .error (.rpathsMayNotBeAbsolute bundle_exe_macho.rpaths bundle_exe_macho.path)
    else .ok bundle_exe_macho.rpaths
  | _ => .error .assertOneBundleExe

/-- The `if/elif/elif/else` dispatch on one search-path entry inside
`fix_path_pointer`, computing the candidate absolute base directory.  The
third branch repeats the `"@executable_path/"` guard of the second (the
source comment expects `@rpath` there), so it is dead code. -/
def rcAbsFor (app : OSXAPP) (path rpath : PyPath) : Except PyErr PyPath :=
  if strContains (strPath rpath) "@loader_path/" then
    .ok (pyJoin app.loader_path (pyParse (pyReplace (strPath rpath) "@loader_path/")))
  else if strContains (strPath rpath) "@executable_path/" then
    .ok (pyJoin app.loader_path (pyParse (pyReplace (strPath rpath) "@executable_path/")))
  else if strContains (strPath rpath) "@executable_path/" then
    .error .unexpectedRpathEntry
  else
    .error (.couldNotResolveRcPath path)

/-- The `for rpath in app_rpaths` loop of `fix_path_pointer`, including the
fall-through to the `@loader_path` fallback after the last entry. -/
def rpathLoop (app : OSXAPP) (path : PyPath) :
    List PyPath → Except PyErr (Option PyPath)
  | [] =>
    match pyRelativeTo path app.loader_path with
    | some rel => .ok (some (pyJoin ⟨false, ["@loader_path"]⟩ rel))
    | none => .error (.relativeToValueError path app.loader_path)
  | rpath :: rest =>
    if rpath.absolute then .error .assertRpathNotAbsolute
    else
      match rcAbsFor app path rpath with
      | .error e => .error e
      | .ok rc_abs =>
        if pyIsRelativeTo path rc_abs then
          .ok (some (pyJoin rpath ⟨false, path.parts.drop rc_abs.parts.length⟩))
        else rpathLoop app path rest

/-- `fix_path_pointer`: return a modified, valid path inside the app for a
given path; `.ok none` models the implicit `return None` (Unresolvable). -/
def fix_path_pointer (app : OSXAPP) (path : PyPath) :
    Except PyErr (Option PyPath) :=
  if isAllowed path then .ok (some path)
  else if path.absolute && pyIsRelativeTo path app.root then
    match app.bundle_exe_rpaths with
    | .error e => .error e
    | .ok app_rpaths => rpathLoop app path app_rpaths
  else .ok none

/-- `check_id_needs_fix`. -/
def check_id_needs_fix (_app : OSXAPP) (binary : MachOBinary) : List Issue :=
  match binary.id_ with
  | none => []
  | some id_p =>
    if !(isAllowed id_p) then
      [{ cat := .libraryPath, fixable := true,
         details := "Library ID with fixed path",
         fix := some (.fix_lib_id binary.path
           (pyJoin ⟨false, ["@rpath"]⟩
             ⟨false, if pyName id_p = "" then [] else [pyName id_p]⟩)) }]
    else []

/-- The `invalid` list of `check_libs_need_fix`: dependency paths that are
not Allowed. -/
def invalidLibs (binary : MachOBinary) : List PyPath :=
  binary.dylibs.filter (fun lib => !(isAllowed lib))

/-- Sequential effectful map, raising at the first error (the shape of the
Python `for` loops that may raise mid-way). -/
def exceptMap {α β : Type} (f : α → Except PyErr β) : List α → Except PyErr (List β)
  | [] => .ok []
  | x :: xs =>
    match f x with
    | .error e => .error e
    | .ok y =>
      match exceptMap f xs with
      | .error e => .error e
      | .ok ys => .ok (y :: ys)

/-- The body of the second loop of `check_libs_need_fix` for one invalid
dependency path. -/
def libIssue (app : OSXAPP) (binary : MachOBinary) (lib : PyPath) :
    Except PyErr Issue :=
  if (app.libraries (pyName lib)).isSome then
    match app.lib_loader_relative (pyName lib) with
    | .ok found =>
      .ok { cat := .libraryPath, fixable := true,
            details := "Link to library not valid",
            fix := some (.fix_load_path binary.path lib found) }
    | .error e => .error e
  else
    .ok { cat := .libraryPath, fixable := false,
          details := "Issue with " ++ pyName lib ++ " at " ++ strPath lib
            ++ " for " ++ strPath binary.path,
          fix := none }

/-- `check_libs_need_fix`. -/
def check_libs_need_fix (app : OSXAPP) (binary : MachOBinary) :
    Except PyErr (List Issue) :=
  exceptMap (libIssue app binary) (invalidLibs binary)

/-- The loop body of `check_rpaths_need_fix` for one search-path entry
(issues appended for this `pth`). -/
def rpathEntryIssues (app : OSXAPP) (binary : MachOBinary)
    (rc_path_delete : Bool) (pth : PyPath) : Except PyErr (List Issue) :=
  match fix_path_pointer app pth with
  | .error e => .error e
  | .ok fixed =>
    .ok (match fixed with
      | some f =>
        if f = pth then []
        else
          [{ cat := .rcpath, fixable := true,
             details := "Rcpath fix: " ++ strPath pth ++ " -> " ++ strPath f,
             fix := some (.fix_rpath binary.path pth f) }]
      | none =>
        if rc_path_delete then
          [{ cat := .rcpath, fixable := true,
             details := "DELETING rpath in " ++ strPath binary.path
               ++ " pointing outside of binary and allowed system paths, this may indicate build issues "
               ++ strPath pth ++ ".",
             fix := some (.remove_rpath binary.path pth) }]
        else
          [{ cat := .rcpath, fixable := false,
             details := "rpath in " ++ strPath binary.path
               ++ " pointing outside of binary and allowed system paths, this may indicate build issues "
               ++ strPath pth ++ ".",
             fix := none }])

/-- `check_rpaths_need_fix`. -/
def check_rpaths_need_fix (app : OSXAPP) (binary : MachOBinary)
    (rc_path_delete : Bool) : Except PyErr (List Issue) :=
  match exceptMap (rpathEntryIssues app binary rc_path_delete) binary.rpaths with
  | .error e => .error e
  | .ok ls => .ok ls.flatten

/-- The build-metadata branch of `OSXAPP.check_binaries` for one binary
(the version-validity and fixability predicates are the modelled `Build`
fields). -/
def buildIssues (app : OSXAPP) (m : MachOBinary) : List Issue :=
  match m.build with
  | none => []
  | some b =>
    if !b.is_valid then
      if b.can_fix then
        [{ cat := .buildMeta, fixable := true,
           details := "Missing build number.",
           fix := some (.vtool_overwrite m.path (Build.valid_build b app.default_build)) }]
      else
        [{ cat := .buildMeta, fixable := false,
           details := "Probably sdk for build outdated - gatekeeper requires >=10.9 ("
             ++ strPath m.path ++ ": platform=" ++ b.platform ++ " sdk=" ++ b.sdk
             ++ " minos=" ++ b.minos ++ ")",
           fix := none }]
    else []

/-- The per-binary accumulation of `OSXAPP.check_binaries`, in source order:
identity issues, dependency issues, search-path issues, build issues. -/
def checkBinariesList (app : OSXAPP) (rc_path_delete : Bool) :
    List MachOBinary → Except PyErr (List Issue)
  | [] => .ok []
  | m :: rest =>
    match check_libs_need_fix app m with
    | .error e => .error e
    | .ok lib_issues =>
      match check_rpaths_need_fix app m rc_path_delete with
      | .error e => .error e
      | .ok rc_issues =>
        match checkBinariesList app rc_path_delete rest with
        | .error e => .error e
        | .ok rest_issues =>
          .ok (check_id_needs_fix app m ++ lib_issues ++ rc_issues
            ++ buildIssues app m ++ rest_issues)

/-- `OSXAPP.check_binaries`. -/
def check_binaries (app : OSXAPP) (rc_path_delete : Bool) :
    Except PyErr (List Issue) :=
  checkBinariesList app rc_path_delete app.macho_binaries

/-- `_commands.Command`: an argument vector, optional working directory,
optional comment. -/
structure Command where
  args : List String
  cwd : Option PyPath := none
  comment : Option String := none
deriving DecidableEq

/-- `Command.to_sh`: the space-joined argument vector, wrapped in
`cd <cwd>` / `cd -` when a working directory is set, preceded by `# `
comment lines when a (non-empty) comment is set. -/
def Command.to_sh (c : Command) : List String :=
  let cmds := [String.intercalate " " c.args]
  let cmds :=
    match c.cwd with
    | some d => ("cd " ++ strPath d) :: cmds ++ ["cd -"]
    | none => cmds
  match c.comment with
  | some m => if m = "" then cmds else (m.splitOn "\n").map (fun l => "# " ++ l) ++ cmds
  | none => cmds

/-- The line list `serialize_to_sh` accumulates before joining. -/
def serializeShLines (commands : List Command) : List String :=
  commands.foldl (fun acc c => acc ++ c.to_sh) []

/-- `serialize_to_sh`: the file content written (lines joined with
newlines). -/
def serialize_to_sh (commands : List Command) : String :=
  String.intercalate "\n" (serializeShLines commands)

/-- Spec-side definition for the round-trip property: dyld-style resolution
of a `@loader_path`-relative path at a concrete directory, resolving `..`
components textually. -/
def normParts : List String → List String → List String
  | acc, [] => acc
  | acc, p :: rest =>
    if p = ".." then normParts acc.dropLast rest else normParts (acc ++ [p]) rest

/-- Iterated `List.dropLast` (used to state what a block of `..` components
removes). -/
def iterDropLast : Nat → List String → List String
  | 0, l => l
  | n + 1, l => iterDropLast n l.dropLast

/-- Re-base a `@loader_path`-relative path at directory `dir` (what the
dynamic loader does when the binary whose directory is `dir` loads the
path). -/
def rebaseAtDir (dir p : PyPath) : Option PyPath :=
  match p.absolute, p.parts with
  | false, tok :: rest =>
    if tok = "@loader_path" then some ⟨dir.absolute, normParts dir.parts rest⟩
    else none
  | _, _ => none

/-! Concrete bundles used to instantiate the theorems. -/

/-- Bundle root `/A.app`. -/
def rootC : PyPath := ⟨true, ["A.app"]⟩

/-- Loader directory `/A.app/Contents/MacOS`. -/
def loaderC : PyPath := ⟨true, ["A.app", "Contents", "MacOS"]⟩

/-- Main executable `/A.app/Contents/MacOS/A`. -/
def exePathC : PyPath := ⟨true, ["A.app", "Contents", "MacOS", "A"]⟩

/-- A dependency path pointing at a build machine location. -/
def dep1 : PyPath := ⟨true, ["private", "tmp", "build", "lib.dylib"]⟩

/-- `lib.dylib` installed next to the main executable. -/
def lib1 : MachOBinary := { path := ⟨true, ["A.app", "Contents", "MacOS", "lib.dylib"]⟩ }

/-- A library in `Contents/Frameworks` that references `dep1`. -/
def bBin1 : MachOBinary :=
  { path := ⟨true, ["A.app", "Contents", "Frameworks", "b.dylib"]⟩, dylibs := [dep1] }

/-- The main executable's binary, no search paths. -/
def exeBin1 : MachOBinary := { path := exePathC }

/-- Bundle for the dependency round-trip claims. -/
def app1 : OSXAPP :=
  { root := rootC, loader_path := loaderC, bundle_exe := exePathC,
    macho_binaries := [exeBin1, lib1, bBin1] }

/-- In-bundle path that is not under the loader directory. -/
def p2 : PyPath := ⟨true, ["A.app", "Contents", "Frameworks", "lib.dylib"]⟩

/-- Main executable with one loader-relative search path entry. -/
def exeBin2w : MachOBinary :=
  { path := exePathC, rpaths := [⟨false, ["@loader_path", "..", "Frameworks"]⟩] }

/-- Bundle whose executable declares `@loader_path/../Frameworks`. -/
def app2w : OSXAPP :=
  { root := rootC, loader_path := loaderC, bundle_exe := exePathC,
    macho_binaries := [exeBin2w] }

/-- In-bundle path directly under the loader directory. -/
def p2w : PyPath := ⟨true, ["A.app", "Contents", "MacOS", "liba.dylib"]⟩

/-- A dangling bare-name search path entry. -/
def pth3 : PyPath := ⟨false, ["libfoo.dylib"]⟩

/-- A binary carrying only the dangling entry `pth3`. -/
def bin3 : MachOBinary :=
  { path := ⟨true, ["A.app", "Contents", "MacOS", "x.dylib"]⟩, rpaths := [pth3] }

/-- Bundle for the dangling search-path claims. -/
def app3 : OSXAPP :=
  { root := rootC, loader_path := loaderC, bundle_exe := exePathC,
    macho_binaries := [exeBin1, bin3] }

/-- A dependency whose file name matches no bundle library. -/
def dep4 : PyPath := ⟨true, ["opt", "missing.dylib"]⟩

/-- A binary referencing the missing dependency `dep4`. -/
def bin4 : MachOBinary :=
  { path := ⟨true, ["A.app", "Contents", "MacOS", "y.dylib"]⟩, dylibs := [dep4] }

/-- Bundle for the missing-dependency claim. -/
def app4 : OSXAPP :=
  { root := rootC, loader_path := loaderC, bundle_exe := exePathC,
    macho_binaries := [exeBin1, bin4] }

/-- An absolute search-path entry (invalid per the bundle layout rules). -/
def absRpath5 : PyPath := ⟨true, ["opt", "lib"]⟩

/-- Main executable whose own search paths contain an absolute entry. -/
def exeBin5 : MachOBinary := { path := exePathC, rpaths := [absRpath5] }

/-- An ordinary binary of the same bundle, with nothing to fix. -/
def bin5 : MachOBinary := { path := ⟨true, ["A.app", "Contents", "MacOS", "z.dylib"]⟩ }

/-- Bundle whose main executable declares an absolute search path. -/
def app5 : OSXAPP :=
  { root := rootC, loader_path := loaderC, bundle_exe := exePathC,
    macho_binaries := [exeBin5, bin5] }

/-- An in-bundle absolute path that needs resolution. -/
def p5 : PyPath := ⟨true, ["A.app", "Contents", "MacOS", "w.dylib"]⟩

/-- An OS-provided path. -/
def p6 : PyPath := ⟨true, ["usr", "lib", "libSystem.dylib"]⟩

/-- A binary with a non-Allowed identity and invalid-but-fixable build
metadata. -/
def m7 : MachOBinary :=
  { path := ⟨true, ["A.app", "Contents", "MacOS", "m.dylib"]⟩,
    id_ := some ⟨true, ["opt", "local", "m.dylib"]⟩,
    build := some { platform := "macos", minos := "", sdk := "10.9",
                    is_valid := false, can_fix := true } }

/-- Bundle for the issue well-formedness claim. -/
def app7 : OSXAPP :=
  { root := rootC, loader_path := loaderC, bundle_exe := exePathC,
    macho_binaries := [m7] }

/-- A relative search-path entry carrying none of the special tokens. -/
def plain9 : PyPath := ⟨false, ["plain"]⟩

/-- Main executable declaring the plain relative entry. -/
def exeBin9 : MachOBinary := { path := exePathC, rpaths := [plain9] }

/-- Bundle for the unreachable-branch claim. -/
def app9 : OSXAPP :=
  { root := rootC, loader_path := loaderC, bundle_exe := exePathC,
    macho_binaries := [exeBin9] }

/-- An in-bundle absolute path that needs resolution. -/
def p9 : PyPath := ⟨true, ["A.app", "Contents", "x.dylib"]⟩

/-- The three-echo command list of the serialization scenario. -/
def echoCmds : List Command :=
  [{ args := ["echo", "0"] }, { args := ["echo", "1"] }, { args := ["echo", "2"] }]

/-! Helper lemmas. -/

theorem check_rpaths_singleton_unresolvable (app : OSXAPP) (b : MachOBinary)
    (pth : PyPath) (hb : b.rpaths = [pth])
    (h : fix_path_pointer app pth = .ok none) :
    check_rpaths_need_fix app b true =
      .ok [{ cat := .rcpath, fixable := true,
             details := "DELETING rpath in " ++ strPath b.path
               ++ " pointing outside of binary and allowed system paths, this may indicate build issues "
               ++ strPath pth ++ ".",
             fix := some (.remove_rpath b.path pth) }] ∧
    check_rpaths_need_fix app b false =
      .ok [{ cat := .rcpath, fixable := false,
             details := "rpath in " ++ strPath b.path
               ++ " pointing outside of binary and allowed system paths, this may indicate build issues "
               ++ strPath pth ++ ".",
             fix := none }] := by
  constructor <;> simp [check_rpaths_need_fix, hb, exceptMap, rpathEntryIssues, h]

theorem serializeShLines_foldl (acc : List String) (cs : List Command) :
    cs.foldl (fun a c => a ++ c.to_sh) acc = acc ++ (cs.map Command.to_sh).flatten := by
  induction cs generalizing acc with
  | nil => simp
  | cons c cs ih => simp [List.foldl, ih]

theorem rpathLoop_skip (app : OSXAPP) (p : PyPath) (rs₁ rest : List PyPath)
    (h : ∀ r ∈ rs₁, r.absolute = false ∧
      ∃ a, rcAbsFor app p r = .ok a ∧ pyIsRelativeTo p a = false) :
    rpathLoop app p (rs₁ ++ rest) = rpathLoop app p rest := by
  induction rs₁ with
  | nil => rfl
  | cons r rs ih =>
    obtain ⟨habs, a, ha, hm⟩ := h r (List.mem_cons_self r rs)
    simp only [List.cons_append, rpathLoop, habs, Bool.false_eq_true, if_false, ha, hm]
    exact ih (fun x hx => h x (List.mem_cons_of_mem r hx))

theorem rcAbsFor_ne_unexpected (app : OSXAPP) (p r : PyPath) :
    rcAbsFor app p r ≠ .error .unexpectedRpathEntry := by
  intro h
  simp only [rcAbsFor] at h
  split at h
  · exact Except.noConfusion h
  · split at h
    · exact Except.noConfusion h
    · injection h with h'
      exact PyErr.noConfusion h'

theorem rpathLoop_ne_unexpected (app : OSXAPP) (p : PyPath) (rs : List PyPath) :
    rpathLoop app p rs ≠ .error .unexpectedRpathEntry := by
  induction rs with
  | nil =>
    simp only [rpathLoop]
    cases pyRelativeTo p app.loader_path <;> simp
  | cons r rest ih =>
    simp only [rpathLoop]
    by_cases habs : r.absolute = true
    · simp [habs]
    · simp only [Bool.not_eq_true] at habs
      simp only [habs, Bool.false_eq_true, if_false]
      cases hr : rcAbsFor app p r with
      | error e =>
        intro h
        injection h with h'
        exact rcAbsFor_ne_unexpected app p r (h' ▸ hr)
      | ok a =>
        by_cases hm : pyIsRelativeTo p a = true
        · simp [hm]
        · simp only [Bool.not_eq_true] at hm
          simp only [hm, Bool.false_eq_true, if_false]
          exact ih

theorem exceptMap_ok_mem {α β : Type} (f : α → Except PyErr β)
    (l : List α) (ys : List β) (x : α)
    (h : exceptMap f l = .ok ys) (hx : x ∈ l) :
    ∃ y, f x = .ok y ∧ y ∈ ys := by
  induction l generalizing ys with
  | nil => cases hx
  | cons z zs ih =>
    simp only [exceptMap] at h
    cases hz : f z with
    | error e => rw [hz] at h; exact Except.noConfusion h
    | ok y0 =>
      rw [hz] at h
      cases hm : exceptMap f zs with
      | error e => rw [hm] at h; exact Except.noConfusion h
      | ok ys0 =>
        rw [hm] at h
        injection h with h'
        subst h'
        rcases List.mem_cons.mp hx with hxz | hxs
        · subst hxz
          exact ⟨y0, hz, List.mem_cons_self y0 ys0⟩
        · obtain ⟨y, hy, hymem⟩ := ih ys0 hm hxs
          exact ⟨y, hy, List.mem_cons_of_mem y0 hymem⟩

theorem exceptMap_ok_of_all {α β : Type} (f : α → Except PyErr β)
    (l : List α) (hall : ∀ x ∈ l, ∃ y, f x = .ok y) :
    ∃ ys, exceptMap f l = .ok ys ∧ ys.length = l.length ∧
      ∀ (k : Nat) (h1 : k < l.length) (h2 : k < ys.length),
        f (l.get ⟨k, h1⟩) = .ok (ys.get ⟨k, h2⟩) := by
  induction l with
  | nil =>
    refine ⟨[], rfl, rfl, ?_⟩
    intro k h1
    exact absurd h1 (by simp)
  | cons x xs ih =>
    obtain ⟨y, hy⟩ := hall x (List.mem_cons_self x xs)
    obtain ⟨ys, hys, hlen, hidx⟩ :=
      ih (fun z hz => hall z (List.mem_cons_of_mem x hz))
    refine ⟨y :: ys, by simp [exceptMap, hy, hys], by simp [hlen], ?_⟩
    intro k h1 h2
    cases k with
    | zero => exact hy
    | succ k =>
      exact hidx k (by simpa using h1) (by simpa using h2)

theorem exceptMap_ok_pres {α β : Type} (f : α → Except PyErr β)
    (P : β → Prop) (l : List α) (ys : List β)
    (h : exceptMap f l = .ok ys)
    (hf : ∀ x y, f x = .ok y → P y) :
    ∀ y ∈ ys, P y := by
  induction l generalizing ys with
  | nil =>
    simp only [exceptMap] at h
    injection h with h'
    subst h'
    intro y hy
    cases hy
  | cons z zs ih =>
    simp only [exceptMap] at h
    cases hz : f z with
    | error e => rw [hz] at h; exact Except.noConfusion h
    | ok y0 =>
      rw [hz] at h
      cases hm : exceptMap f zs with
      | error e => rw [hm] at h; exact Except.noConfusion h
      | ok ys0 =>
        rw [hm] at h
        injection h with h'
        subst h'
        intro y hy
        rcases List.mem_cons.mp hy with hyy | hys
        · subst hyy
          exact hf z y hz
        · exact ih ys0 hm y hys

theorem libraries_foldl_mem (name : String) (l : List MachOBinary)
    (acc : Option MachOBinary) (L : MachOBinary)
    (h : l.foldl (fun a x => if pyName x.path = name then some x else a) acc = some L) :
    L ∈ l ∨ acc = some L := by
  induction l generalizing acc with
  | nil => exact Or.inr h
  | cons x xs ih =>
    simp only [List.foldl_cons] at h
    rcases ih _ h with hmem | hacc
    · exact Or.inl (List.mem_cons_of_mem x hmem)
    · by_cases hn : pyName x.path = name
      · rw [if_pos hn] at hacc
        injection hacc with h'
        subst h'
        exact Or.inl (List.mem_cons_self x xs)
      · rw [if_neg hn] at hacc
        exact Or.inr hacc

theorem libraries_mem (app : OSXAPP) (name : String) (L : MachOBinary)
    (h : app.libraries name = some L) : L ∈ app.macho_binaries := by
  rcases libraries_foldl_mem name app.macho_binaries none L h with hmem | habs
  · exact hmem
  · exact Option.noConfusion habs

theorem empty_candidate_mem (q : PyPath) (hq : q.absolute = false) :
    (⟨false, []⟩ : PyPath) ∈ q :: pyParents q := by
  cases hp : q.parts with
  | nil =>
    have hqeq : q = ⟨false, []⟩ := by
      cases q
      simp_all
    rw [hqeq]
    exact List.mem_cons_self _ _
  | cons a l =>
    refine List.mem_cons_of_mem q (List.mem_map.mpr
      ⟨q.parts.length - 1, List.mem_range.mpr (by simp [hp]), ?_⟩)
    have h0 : q.parts.length - 1 - (q.parts.length - 1) = 0 := by omega
    simp [h0, hq]

theorem findLoaderRel_mem_some (root lib : PyPath) (cs : List PyPath) (i : Nat)
    (h : ∃ c ∈ cs, pyIsRelativeTo lib (pyJoin root c) = true) :
    ∃ p, findLoaderRel root lib i cs = some p := by
  induction cs generalizing i with
  | nil => simp at h
  | cons c cs ih =>
    by_cases hc : pyIsRelativeTo lib (pyJoin root c) = true
    · exact ⟨pyJoin (pyJoin ⟨false, ["@loader_path"]⟩ ⟨false, List.replicate i ".."⟩)
        ⟨false, lib.parts.drop (pyJoin root c).parts.length⟩,
        by simp [findLoaderRel, hc]⟩
    · obtain ⟨c', hc', ht⟩ := h
      rcases List.mem_cons.mp hc' with rfl | hmem
      · exact absurd ht hc
      · obtain ⟨p, hp⟩ := ih (i + 1) ⟨c', hmem, ht⟩
        exact ⟨p, by simp [findLoaderRel, hc, hp]⟩

theorem lib_loader_relative_ok (app : OSXAPP) (name : String) (L : MachOBinary)
    (hlib : app.libraries name = some L)
    (hloader : pyIsRelativeTo app.loader_path app.root = true)
    (hLroot : pyIsRelativeTo L.path app.root = true) :
    ∃ f, app.lib_loader_relative name = .ok f := by
  have hrel : pyRelativeTo app.loader_path app.root =
      some ⟨false, app.loader_path.parts.drop app.root.parts.length⟩ := by
    simp [pyRelativeTo, hloader]
  have hjoin : pyJoin app.root ⟨false, []⟩ = app.root := by
    simp [pyJoin]
  have hmem : (⟨false, []⟩ : PyPath) ∈
      (⟨false, app.loader_path.parts.drop app.root.parts.length⟩ : PyPath) ::
        pyParents ⟨false, app.loader_path.parts.drop app.root.parts.length⟩ :=
    empty_candidate_mem _ rfl
  obtain ⟨p, hp⟩ := findLoaderRel_mem_some app.root L.path _ 0
    ⟨⟨false, []⟩, hmem, by rw [hjoin]; exact hLroot⟩
  exact ⟨p, by simp [OSXAPP.lib_loader_relative, hlib, hrel, hp]⟩

theorem bundle_exe_rpaths_ne_unexpected (app : OSXAPP) :
    app.bundle_exe_rpaths ≠ .error .unexpectedRpathEntry := by
  intro h
  simp only [OSXAPP.bundle_exe_rpaths] at h
  split at h
  · split at h
    · injection h with h'
      exact PyErr.noConfusion h'
    · exact Except.noConfusion h
  · injection h with h'
    exact PyErr.noConfusion h'

/-! Claim theorems. -/

theorem check_id_wf (app : OSXAPP) (m : MachOBinary) :
    ∀ i ∈ check_id_needs_fix app m, i.fixable = true → i.fix ≠ none := by
  intro i hi
  cases hm : m.id_ with
  | none => simp [check_id_needs_fix, hm] at hi
  | some idp =>
    simp only [check_id_needs_fix, hm] at hi
    split at hi
    · rw [List.mem_singleton.mp hi]
      simp
    · cases hi

theorem libIssue_wf (app : OSXAPP) (b : MachOBinary) (lib : PyPath) (i : Issue)
    (h : libIssue app b lib = .ok i) : i.fixable = true → i.fix ≠ none := by
  simp only [libIssue] at h
  split at h
  · split at h
    · injection h with h'
      subst h'
      simp
    · exact Except.noConfusion h
  · injection h with h'
    subst h'
    simp

theorem rpathEntry_wf (app : OSXAPP) (b : MachOBinary) (del : Bool)
    (pth : PyPath) (is : List Issue)
    (h : rpathEntryIssues app b del pth = .ok is) :
    ∀ i ∈ is, i.fixable = true → i.fix ≠ none := by
  simp only [rpathEntryIssues] at h
  cases hf : fix_path_pointer app pth with
  | error e => rw [hf] at h; exact Except.noConfusion h
  | ok fixed =>
    rw [hf] at h
    injection h with h'
    subst h'
    intro i hi
    revert hi
    cases fixed with
    | some f =>
      dsimp only
      intro hi
      by_cases hfp : f = pth
      · rw [if_pos hfp] at hi
        cases hi
      · rw [if_neg hfp] at hi
        rw [List.mem_singleton.mp hi]
        simp
    | none =>
      dsimp only
      intro hi
      by_cases hdel : del = true
      · rw [if_pos hdel] at hi
        rw [List.mem_singleton.mp hi]
        simp
      · rw [if_neg hdel] at hi
        rw [List.mem_singleton.mp hi]
        simp

theorem buildIssues_wf (app : OSXAPP) (m : MachOBinary) :
    ∀ i ∈ buildIssues app m, i.fixable = true → i.fix ≠ none := by
  intro i hi
  cases hb : m.build with
  | none => simp [buildIssues, hb] at hi
  | some b =>
    simp only [buildIssues, hb] at hi
    split at hi
    · split at hi <;> rw [List.mem_singleton.mp hi] <;> simp
    · cases hi

theorem check_libs_wf (app : OSXAPP) (b : MachOBinary) (L : List Issue)
    (h : check_libs_need_fix app b = .ok L) :
    ∀ i ∈ L, i.fixable = true → i.fix ≠ none :=
  exceptMap_ok_pres _ _ _ _ h (fun lib i hok => libIssue_wf app b lib i hok)

theorem check_rpaths_wf (app : OSXAPP) (b : MachOBinary) (del : Bool)
    (L : List Issue) (h : check_rpaths_need_fix app b del = .ok L) :
    ∀ i ∈ L, i.fixable = true → i.fix ≠ none := by
  simp only [check_rpaths_need_fix] at h
  cases hm : exceptMap (rpathEntryIssues app b del) b.rpaths with
  | error e => rw [hm] at h; exact Except.noConfusion h
  | ok ls =>
    rw [hm] at h
    injection h with h'
    subst h'
    intro i hi
    obtain ⟨s, hs, his⟩ := List.mem_flatten.mp hi
    exact exceptMap_ok_pres _ (fun s => ∀ i ∈ s, i.fixable = true → i.fix ≠ none)
      _ _ hm (fun pth s hok => rpathEntry_wf app b del pth s hok) s hs i his

theorem checkBinariesList_wf (app : OSXAPP) (del : Bool) :
    ∀ (bs : List MachOBinary) (L : List Issue),
      checkBinariesList app del bs = .ok L →
      ∀ i ∈ L, i.fixable = true → i.fix ≠ none := by
  intro bs
  induction bs with
  | nil =>
    intro L h
    simp only [checkBinariesList] at h
    injection h with h'
    subst h'
    intro i hi
    cases hi
  | cons m rest ih =>
    intro L h
    simp only [checkBinariesList] at h
    cases hlib : check_libs_need_fix app m with
    | error e => rw [hlib] at h; exact Except.noConfusion h
    | ok lib_issues =>
      rw [hlib] at h
      cases hrc : check_rpaths_need_fix app m del with
      | error e => rw [hrc] at h; exact Except.noConfusion h
      | ok rc_issues =>
        rw [hrc] at h
        cases hrest : checkBinariesList app del rest with
        | error e => rw [hrest] at h; exact Except.noConfusion h
        | ok rest_issues =>
          rw [hrest] at h
          injection h with h'
          subst h'
          intro i hi
          rcases List.mem_append.mp hi with hi | hi5
          rcases List.mem_append.mp hi with hi | hi4
          rcases List.mem_append.mp hi with hi | hi3
          rcases List.mem_append.mp hi with hi1 | hi2
          · exact check_id_wf app m i hi1
          · exact check_libs_wf app m lib_issues hlib i hi2
          · exact check_rpaths_wf app m del rc_issues hrc i hi3
          · exact buildIssues_wf app m i hi4
          · exact ih rest_issues hrest i hi5

/-- C2 counterexample: `/A.app/Contents/Frameworks/lib.dylib` is absolute,
inside the bundle root, not Allowed, and matches none of the (empty) main
executable search paths, yet resolution raises the `relative_to`
`ValueError` instead of succeeding — refuting the claim that the fallback
succeeds unconditionally for paths not under the loader's directory. -/
theorem c2_fallback_counterexample :
    p2.absolute = true ∧ pyIsRelativeTo p2 app1.root = true ∧
    isAllowed p2 = false ∧ OSXAPP.bundle_exe_rpaths app1 = .ok [] ∧
    fix_path_pointer app1 p2 = .error (.relativeToValueError p2 app1.loader_path) :=
  ⟨by decide, by decide, by decide, by rfl, by rfl⟩

/-- C2 (amended): for an absolute in-bundle path that is not Allowed and
matches no search-path entry of the main executable, the fallback returns
the `@loader_path`-relative rewrite when the path lies under the loader's
directory, and raises the `relative_to` `ValueError` otherwise. -/
theorem c2_fallback_loader_relative (app : OSXAPP) (p : PyPath)
    (rps : List PyPath)
    (hra : OSXAPP.bundle_exe_rpaths app = .ok rps)
    (habs : p.absolute = true) (hroot : pyIsRelativeTo p app.root = true)
    (hna : isAllowed p = false)
    (hnm : ∀ r ∈ rps, r.absolute = false ∧
      ∃ a, rcAbsFor app p r = .ok a ∧ pyIsRelativeTo p a = false) :
    (pyIsRelativeTo p app.loader_path = true →
      fix_path_pointer app p = .ok (some (pyJoin ⟨false, ["@loader_path"]⟩
        ⟨false, p.parts.drop app.loader_path.parts.length⟩))) ∧
    (pyIsRelativeTo p app.loader_path = false →
      fix_path_pointer app p = .error (.relativeToValueError p app.loader_path)) := by
  have hfp : fix_path_pointer app p = rpathLoop app p rps := by
    simp [fix_path_pointer, hna, habs, hroot, hra]
  have hskip : rpathLoop app p rps = rpathLoop app p [] := by
    have := rpathLoop_skip app p rps [] hnm
    simpa using this
  rw [hfp, hskip]
  constructor
  · intro hrel
    simp [rpathLoop, pyRelativeTo, hrel]
  · intro hrel
    simp [rpathLoop, pyRelativeTo, hrel]

/-- C2 witness: inside `app2w` (one non-matching search path entry), the
in-loader-directory path `p2w` resolves to `@loader_path/liba.dylib`. -/
theorem c2_fallback_loader_relative_witness :
    fix_path_pointer app2w p2w = .ok (some ⟨false, ["@loader_path", "liba.dylib"]⟩) :=
  (c2_fallback_loader_relative app2w p2w
      [⟨false, ["@loader_path", "..", "Frameworks"]⟩]
      (by rfl) (by decide) (by decide) (by decide)
      (fun r hr => by
        have hr' : r = ⟨false, ["@loader_path", "..", "Frameworks"]⟩ :=
          List.mem_singleton.mp hr
        subst hr'
        exact ⟨rfl, ⟨true, ["A.app", "Contents", "MacOS", "..", "Frameworks"]⟩,
          by rfl, by decide⟩)).1 (by decide)

/-- C5 counterexample: `app5` has an absolute search path on its main
executable, yet the construction-time validation passes and per-binary
issue checking proceeds; the error surfaces only from the lazy
`bundle_exe_rpaths` property — refuting "fatal at construction, before any
per-binary issue checking". -/
theorem c5_construction_counterexample :
    postInitCheck app5 = true ∧
    check_id_needs_fix app5 bin5 = [] ∧
    check_libs_need_fix app5 bin5 = .ok [] ∧
    check_rpaths_need_fix app5 bin5 true = .ok [] ∧
    OSXAPP.bundle_exe_rpaths app5 =
      .error (.rpathsMayNotBeAbsolute [absRpath5] exePathC) ∧
    fix_path_pointer app5 p5 =
      .error (.rpathsMayNotBeAbsolute [absRpath5] exePathC) :=
  ⟨by decide, by rfl, by rfl, by rfl, by rfl, by rfl⟩

/-- C5 (amended): an absolute search-path entry on the main executable is
not rejected when the bundle model is built; instead `bundle_exe_rpaths`
raises lazily, and hence the first resolution of an absolute in-bundle
path that needs it propagates that error. -/
theorem c5_absolute_exe_rpath_lazy_error (app : OSXAPP) (exe : MachOBinary)
    (p : PyPath)
    (hexe : app.macho_binaries.filter
      (fun x => decide (x.path = app.bundle_exe)) = [exe])
    (habsr : exe.rpaths.any (fun rc => rc.absolute) = true)
    (hp1 : p.absolute = true) (hp2 : pyIsRelativeTo p app.root = true)
    (hp3 : isAllowed p = false) :
    OSXAPP.bundle_exe_rpaths app =
      .error (.rpathsMayNotBeAbsolute exe.rpaths exe.path) ∧
    fix_path_pointer app p =
      .error (.rpathsMayNotBeAbsolute exe.rpaths exe.path) := by
  have hra : OSXAPP.bundle_exe_rpaths app =
      .error (.rpathsMayNotBeAbsolute exe.rpaths exe.path) := by
    simp [OSXAPP.bundle_exe_rpaths, hexe, habsr]
  refine ⟨hra, ?_⟩
  simp [fix_path_pointer, hp3, hp1, hp2, hra]

/-- C5 witness: the lazy error of `app5` at the in-bundle path `p5`. -/
theorem c5_absolute_exe_rpath_lazy_error_witness :
    OSXAPP.bundle_exe_rpaths app5 =
      .error (.rpathsMayNotBeAbsolute exeBin5.rpaths exeBin5.path) ∧
    fix_path_pointer app5 p5 =
      .error (.rpathsMayNotBeAbsolute exeBin5.rpaths exeBin5.path) :=
  c5_absolute_exe_rpath_lazy_error app5 exeBin5 p5 (by rfl) (by decide)
    (by decide) (by decide) (by decide)

/-- C9: a relative search-path entry of the main executable whose string
contains neither `@loader_path/` nor `@executable_path/` makes the
resolver raise (when the loop reaches it) instead of resolving or
returning Unresolvable, and the branch guarded by the repeated
`@executable_path/` condition is unreachable: no input makes
`fix_path_pointer` return its error. -/
theorem c9_plain_relative_entry_raises :
    (∀ (app : OSXAPP) (p r : PyPath) (rs₁ rs₂ : List PyPath),
      p.absolute = true → pyIsRelativeTo p app.root = true →
      isAllowed p = false →
      OSXAPP.bundle_exe_rpaths app = .ok (rs₁ ++ r :: rs₂) →
      (∀ x ∈ rs₁, x.absolute = false ∧
        ∃ a, rcAbsFor app p x = .ok a ∧ pyIsRelativeTo p a = false) →
      r.absolute = false →
      strContains (strPath r) "@loader_path/" = false →
      strContains (strPath r) "@executable_path/" = false →
      fix_path_pointer app p = .error (.couldNotResolveRcPath p)) ∧
    (∀ (app : OSXAPP) (p : PyPath),
      fix_path_pointer app p ≠ .error .unexpectedRpathEntry) := by
  constructor
  · intro app p r rs₁ rs₂ habs hroot hna hra hskip habsr h1 h2
    have hfp : fix_path_pointer app p = rpathLoop app p (rs₁ ++ r :: rs₂) := by
      simp [fix_path_pointer, hna, habs, hroot, hra]
    rw [hfp, rpathLoop_skip app p rs₁ (r :: rs₂) hskip]
    simp [rpathLoop, habsr, rcAbsFor, h1, h2]
  · intro app p h
    simp only [fix_path_pointer] at h
    split at h
    · exact Except.noConfusion h
    · split at h
      · rename_i heq
        cases hra : app.bundle_exe_rpaths with
        | error e =>
          rw [hra] at h
          injection h with h'
          exact bundle_exe_rpaths_ne_unexpected app (h' ▸ hra)
        | ok rps =>
          rw [hra] at h
          exact rpathLoop_ne_unexpected app p rps h
      · exact Except.noConfusion h

/-- C9 witness: the plain entry `plain` of `app9` makes resolution of the
in-bundle path `p9` raise the could-not-resolve error, which is not the
unreachable-branch error. -/
theorem c9_plain_relative_entry_raises_witness :
    fix_path_pointer app9 p9 = .error (.couldNotResolveRcPath p9) ∧
    fix_path_pointer app9 p9 ≠ .error .unexpectedRpathEntry :=
  ⟨c9_plain_relative_entry_raises.1 app9 p9 plain9 [] [] (by decide) (by decide)
      (by decide) (by rfl) (fun x hx => absurd hx (List.not_mem_nil x))
      (by rfl) (by decide) (by decide),
    c9_plain_relative_entry_raises.2 app9 p9⟩

theorem listStartsWith_eq : ∀ (q p : List String),
    listStartsWith q p = true → p = q ++ p.drop q.length := by
  intro q
  induction q with
  | nil => intro p _; simp
  | cons a as ih =>
    intro p h
    cases p with
    | nil => simp [listStartsWith] at h
    | cons b bs =>
      simp only [listStartsWith, Bool.and_eq_true, beq_iff_eq] at h
      obtain ⟨hab, hrest⟩ := h
      subst hab
      exact congrArg (List.cons a) (ih bs hrest)

theorem pyIsRelativeTo_parts (p q : PyPath) (h : pyIsRelativeTo p q = true) :
    p.absolute = q.absolute ∧ p.parts = q.parts ++ p.parts.drop q.parts.length := by
  simp only [pyIsRelativeTo, Bool.and_eq_true, beq_iff_eq] at h
  exact ⟨h.1, listStartsWith_eq q.parts p.parts h.2⟩

theorem findLoaderRel_some_shape (root lib : PyPath) :
    ∀ (cs : List PyPath) (i : Nat) (p : PyPath),
      findLoaderRel root lib i cs = some p →
      ∃ k c, cs.get? k = some c ∧ pyIsRelativeTo lib (pyJoin root c) = true ∧
        p = pyJoin (pyJoin ⟨false, ["@loader_path"]⟩
            ⟨false, List.replicate (i + k) ".."⟩)
          ⟨false, lib.parts.drop (pyJoin root c).parts.length⟩ := by
  intro cs
  induction cs with
  | nil => intro i p h; exact absurd h (by simp [findLoaderRel])
  | cons c cs ih =>
    intro i p h
    simp only [findLoaderRel] at h
    by_cases hc : pyIsRelativeTo lib (pyJoin root c) = true
    · rw [if_pos hc] at h
      injection h with h'
      refine ⟨0, c, rfl, hc, ?_⟩
      rw [← h']
      simp
    · rw [if_neg hc] at h
      obtain ⟨k, c', hget, ht, hp⟩ := ih (i + 1) p h
      refine ⟨k + 1, c', hget, ht, ?_⟩
      rw [hp]
      have harith : i + 1 + k = i + (k + 1) := by omega
      rw [harith]

theorem candidates_get (lrr : PyPath) (habs : lrr.absolute = false)
    (k : Nat) (c : PyPath)
    (h : (lrr :: pyParents lrr).get? k = some c) :
    k ≤ lrr.parts.length ∧
      c = ⟨false, lrr.parts.take (lrr.parts.length - k)⟩ := by
  cases k with
  | zero =>
    injection h with h'
    subst h'
    refine ⟨Nat.zero_le _, ?_⟩
    rw [Nat.sub_zero, List.take_length, ← habs]
  | succ k =>
    have h' : (pyParents lrr).get? k = some c := h
    simp only [pyParents] at h'
    rw [List.get?_map] at h'
    have hk : k < lrr.parts.length := by
      by_contra hk
      rw [List.get?_eq_none.mpr
        (by simpa [List.length_range] using Nat.le_of_not_lt hk)] at h'
      exact Option.noConfusion h'
    rw [List.get?_range hk] at h'
    simp only [Option.map_some'] at h'
    injection h' with h''
    refine ⟨by omega, ?_⟩
    rw [← h'']
    have harith : lrr.parts.length - 1 - k = lrr.parts.length - (k + 1) := by
      omega
    rw [habs, harith]

theorem dropLast_cons_ne_nil (a : String) (xs : List String) (h : xs ≠ []) :
    (a :: xs).dropLast = a :: xs.dropLast := by
  cases xs with
  | nil => exact absurd rfl h
  | cons b ys => rfl

theorem dropLast_append_ne_nil (R L : List String) (h : L ≠ []) :
    (R ++ L).dropLast = R ++ L.dropLast := by
  induction R with
  | nil => rfl
  | cons a R ih =>
    have hne : R ++ L ≠ [] := by
      cases L with
      | nil => exact absurd rfl h
      | cons x xs => simp
    rw [List.cons_append, dropLast_cons_ne_nil a (R ++ L) hne, ih]
    rfl

theorem take_dropLast (L : List String) : ∀ (m : Nat), m ≤ L.length - 1 →
    L.dropLast.take m = L.take m := by
  induction L with
  | nil => intro m _; rfl
  | cons a xs ih =>
    intro m hm
    cases m with
    | zero => rfl
    | succ m =>
      have hm' : m + 1 ≤ xs.length := by simpa using hm
      have hxs : xs ≠ [] := by
        intro hx
        subst hx
        simp at hm'
      rw [dropLast_cons_ne_nil a xs hxs]
      simp only [List.take_succ_cons]
      rw [ih m (by omega)]

theorem iterDropLast_append (R : List String) : ∀ (k : Nat) (L : List String),
    k ≤ L.length → iterDropLast k (R ++ L) = R ++ L.take (L.length - k) := by
  intro k
  induction k with
  | zero =>
    intro L _
    simp [iterDropLast, List.take_length]
  | succ k ih =>
    intro L hk
    have hL : L ≠ [] := by
      intro h
      subst h
      simp at hk
    simp only [iterDropLast]
    rw [dropLast_append_ne_nil R L hL,
      ih L.dropLast (by simp [List.length_dropLast]; omega)]
    congr 1
    rw [List.length_dropLast]
    rw [take_dropLast L (L.length - 1 - k) (by omega)]
    congr 1
    omega

theorem normParts_no_dots : ∀ (ys acc : List String),
    (∀ x ∈ ys, ¬ x = "..") → normParts acc ys = acc ++ ys := by
  intro ys
  induction ys with
  | nil => intro acc _; simp [normParts]
  | cons p rest ih =>
    intro acc h
    have hp : ¬ p = ".." := h p (List.mem_cons_self p rest)
    simp only [normParts, if_neg hp]
    rw [ih (acc ++ [p]) (fun x hx => h x (List.mem_cons_of_mem p hx))]
    simp

theorem normParts_replicate : ∀ (i : Nat) (acc ys : List String),
    normParts acc (List.replicate i ".." ++ ys) =
      normParts (iterDropLast i acc) ys := by
  intro i
  induction i with
  | zero => intro acc ys; simp [iterDropLast]
  | succ i ih =>
    intro acc ys
    rw [List.replicate_succ, List.cons_append]
    simp only [normParts, if_true]
    exact ih acc.dropLast ys

theorem rebase_shape (dir : PyPath) (R Lp rest : List String) (k : Nat)
    (hk : k ≤ Lp.length) (hdir : dir.parts = R ++ Lp)
    (hrest : ∀ x ∈ rest, ¬ x = "..") :
    rebaseAtDir dir ⟨false, "@loader_path" :: (List.replicate k ".." ++ rest)⟩ =
      some ⟨dir.absolute, (R ++ Lp.take (Lp.length - k)) ++ rest⟩ := by
  show some (⟨dir.absolute,
    normParts dir.parts (List.replicate k ".." ++ rest)⟩ : PyPath) = _
  rw [hdir, normParts_replicate, iterDropLast_append R k Lp hk,
    normParts_no_dots rest _ hrest]

theorem lib_loader_relative_rebase (app : OSXAPP) (name : String)
    (L : MachOBinary)
    (hlib : app.libraries name = some L)
    (hloader : pyIsRelativeTo app.loader_path app.root = true)
    (hndlib : ∀ x ∈ L.path.parts, ¬ x = "..")
    (hLroot : pyIsRelativeTo L.path app.root = true) :
    ∃ f, app.lib_loader_relative name = .ok f ∧
      rebaseAtDir app.loader_path f = some L.path := by
  obtain ⟨f, hf⟩ := lib_loader_relative_ok app name L hlib hloader hLroot
  refine ⟨f, hf, ?_⟩
  have hrel : pyRelativeTo app.loader_path app.root =
      some ⟨false, app.loader_path.parts.drop app.root.parts.length⟩ := by
    simp [pyRelativeTo, hloader]
  have hfind : findLoaderRel app.root L.path 0
      ((⟨false, app.loader_path.parts.drop app.root.parts.length⟩ : PyPath) ::
        pyParents ⟨false, app.loader_path.parts.drop app.root.parts.length⟩) =
      some f := by
    simp only [OSXAPP.lib_loader_relative, hlib, hrel] at hf
    cases hq : findLoaderRel app.root L.path 0
        ((⟨false, app.loader_path.parts.drop app.root.parts.length⟩ : PyPath) ::
          pyParents ⟨false, app.loader_path.parts.drop app.root.parts.length⟩) with
    | none => rw [hq] at hf; exact Except.noConfusion hf
    | some p => rw [hq] at hf; injection hf with h'; rw [h']
  obtain ⟨k, c, hget, htest, hshape⟩ :=
    findLoaderRel_some_shape app.root L.path _ 0 f hfind
  obtain ⟨hk, hc⟩ := candidates_get _ rfl k c hget
  have habs0 := (pyIsRelativeTo_parts _ _ hloader).1
  have hdropparts := (pyIsRelativeTo_parts _ _ hloader).2
  have hcabs : c.absolute = false := by rw [hc]
  have hcparts : c.parts =
      (app.loader_path.parts.drop app.root.parts.length).take
        ((app.loader_path.parts.drop app.root.parts.length).length - k) := by
    rw [hc]
  have hbasea : (pyJoin app.root c).absolute = app.root.absolute := by
    simp [pyJoin, hcabs]
  have hbasep : (pyJoin app.root c).parts = app.root.parts ++ c.parts := by
    simp [pyJoin, hcabs]
  obtain ⟨habs1, hparts1⟩ := pyIsRelativeTo_parts L.path (pyJoin app.root c) htest
  have hfeq : f = ⟨false, "@loader_path" ::
      (List.replicate k ".." ++
        L.path.parts.drop (pyJoin app.root c).parts.length)⟩ := by
    rw [hshape]
    simp [pyJoin]
  rw [hfeq]
  rw [rebase_shape app.loader_path app.root.parts
    (app.loader_path.parts.drop app.root.parts.length)
    (L.path.parts.drop (pyJoin app.root c).parts.length) k hk hdropparts
    (fun x hx => hndlib x (List.drop_subset _ _ hx))]
  have habsfin : app.loader_path.absolute = L.path.absolute := by
    rw [habs0, habs1, hbasea]
  have hpartsfin : (app.root.parts ++
      (app.loader_path.parts.drop app.root.parts.length).take
        ((app.loader_path.parts.drop app.root.parts.length).length - k)) ++
      L.path.parts.drop (pyJoin app.root c).parts.length = L.path.parts := by
    conv_rhs => rw [hparts1]
    congr 1
    rw [hbasep, hcparts]
  rw [habsfin, hpartsfin]

/-- C1 counterexample: in `app1`, binary `bBin1` (in `Contents/Frameworks`)
references `dep1`, whose file name matches `lib1` (in `Contents/MacOS`).
The planned rewrite is `@loader_path/lib.dylib`; re-based at `bBin1`'s own
directory it yields `/A.app/Contents/Frameworks/lib.dylib`, which is not
`lib1`'s absolute path — the loader-relative rewrite is computed against
the main executable's directory, not the referencing binary's. -/
theorem c1_roundtrip_counterexample :
    OSXAPP.lib_loader_relative app1 "lib.dylib" =
      .ok ⟨false, ["@loader_path", "lib.dylib"]⟩ ∧
    check_libs_need_fix app1 bBin1 =
      .ok [{ cat := .libraryPath, fixable := true,
             details := "Link to library not valid",
             fix := some (.fix_load_path bBin1.path dep1
               ⟨false, ["@loader_path", "lib.dylib"]⟩) }] ∧
    rebaseAtDir (pyParent bBin1.path) ⟨false, ["@loader_path", "lib.dylib"]⟩ =
      some ⟨true, ["A.app", "Contents", "Frameworks", "lib.dylib"]⟩ ∧
    (⟨true, ["A.app", "Contents", "Frameworks", "lib.dylib"]⟩ : PyPath) ≠
      lib1.path :=
  ⟨by rfl, by rfl, by rfl, by decide⟩

/-- C1 (amended): for a dependency `d` of binary `b` that needs resolution
and matches bundle library `L`, the planned rewrite is a loader-relative
path that, re-based at the MAIN EXECUTABLE's directory (the bundle's
loader directory), yields exactly `L`'s absolute path; re-basing at `b`'s
own directory recovers it only when the two coincide. -/
theorem c1_roundtrip_at_main_loader (app : OSXAPP) (b : MachOBinary)
    (d : PyPath) (L : MachOBinary) (issues : List Issue)
    (hlib : app.libraries (pyName d) = some L)
    (hloader : pyIsRelativeTo app.loader_path app.root = true)
    (hndlib : ∀ x ∈ L.path.parts, ¬ x = "..")
    (hLroot : pyIsRelativeTo L.path app.root = true)
    (hd : d ∈ b.dylibs) (hna : isAllowed d = false)
    (hok : check_libs_need_fix app b = .ok issues) :
    ∃ f, app.lib_loader_relative (pyName d) = .ok f ∧
      ({ cat := .libraryPath, fixable := true,
         details := "Link to library not valid",
         fix := some (.fix_load_path b.path d f) } : Issue) ∈ issues ∧
      rebaseAtDir app.loader_path f = some L.path := by
  obtain ⟨f, hf, hrb⟩ :=
    lib_loader_relative_rebase app (pyName d) L hlib hloader hndlib hLroot
  have hdinv : d ∈ invalidLibs b := List.mem_filter.mpr ⟨hd, by simp [hna]⟩
  obtain ⟨y, hy, hymem⟩ :=
    exceptMap_ok_mem (libIssue app b) (invalidLibs b) issues d hok hdinv
  have hyeq : y = ({ cat := .libraryPath, fixable := true,
                     details := "Link to library not valid",
                     fix := some (.fix_load_path b.path d f) } : Issue) := by
    unfold libIssue at hy
    rw [hlib] at hy
    rw [if_pos (by rfl)] at hy
    rw [hf] at hy
    injection hy with h'
    exact h'.symm
  exact ⟨f, hf, hyeq ▸ hymem, hrb⟩

/-- C1 witness: the round trip for `dep1` in `app1`, re-based at the main
executable directory. -/
theorem c1_roundtrip_at_main_loader_witness :
    ∃ f, OSXAPP.lib_loader_relative app1 (pyName dep1) = .ok f ∧
      ({ cat := .libraryPath, fixable := true,
         details := "Link to library not valid",
         fix := some (.fix_load_path bBin1.path dep1 f) } : Issue) ∈
        [({ cat := .libraryPath, fixable := true,
            details := "Link to library not valid",
            fix := some (.fix_load_path bBin1.path dep1
              ⟨false, ["@loader_path", "lib.dylib"]⟩) } : Issue)] ∧
      rebaseAtDir app1.loader_path f = some lib1.path :=
  c1_roundtrip_at_main_loader app1 bBin1 dep1 lib1 _ (by rfl) (by decide)
    (by decide) (by decide) (by decide) (by decide) (by rfl)

/-- C4: a dependency path needing resolution whose file name matches no
bundle library yields exactly one unfixable issue per occurrence, naming
the missing dependency and the referencing binary, with no repair
operation, and the dependency check returns normally (one issue per
invalid dependency, in order — no exception). -/
theorem c4_missing_dependency_is_data (app : OSXAPP) (b : MachOBinary)
    (hloader : pyIsRelativeTo app.loader_path app.root = true)
    (hinv : ∀ m ∈ app.macho_binaries, pyIsRelativeTo m.path app.root = true) :
    ∃ issues, check_libs_need_fix app b = .ok issues ∧
      issues.length = (invalidLibs b).length ∧
      ∀ (k : Nat) (h1 : k < (invalidLibs b).length) (h2 : k < issues.length),
        app.libraries (pyName ((invalidLibs b).get ⟨k, h1⟩)) = none →
        issues.get ⟨k, h2⟩ =
          { cat := .libraryPath, fixable := false,
            details := "Issue with " ++ pyName ((invalidLibs b).get ⟨k, h1⟩)
              ++ " at " ++ strPath ((invalidLibs b).get ⟨k, h1⟩)
              ++ " for " ++ strPath b.path,
            fix := none } := by
  have hall : ∀ lib ∈ invalidLibs b, ∃ y, libIssue app b lib = .ok y := by
    intro lib _
    cases hl : app.libraries (pyName lib) with
    | none =>
      exact ⟨{ cat := .libraryPath, fixable := false,
               details := "Issue with " ++ pyName lib ++ " at " ++ strPath lib
                 ++ " for " ++ strPath b.path,
               fix := none }, by simp [libIssue, hl]⟩
    | some L =>
      obtain ⟨f, hf⟩ := lib_loader_relative_ok app (pyName lib) L hl hloader
        (hinv L (libraries_mem app (pyName lib) L hl))
      exact ⟨{ cat := .libraryPath, fixable := true,
               details := "Link to library not valid",
               fix := some (.fix_load_path b.path lib f) },
        by simp [libIssue, hl, hf]⟩
  obtain ⟨ys, hys, hlen, hidx⟩ := exceptMap_ok_of_all (libIssue app b) (invalidLibs b) hall
  refine ⟨ys, hys, hlen, ?_⟩
  intro k h1 h2 hnone
  have hk := hidx k h1 h2
  simp only [libIssue, hnone, Option.isSome_none, Bool.false_eq_true, if_false] at hk
  injection hk with hk'
  exact hk'.symm

/-- C4 witness: `bin4` references `/opt/missing.dylib`, whose name matches
no library of `app4`. -/
theorem c4_missing_dependency_is_data_witness :
    ∃ issues, check_libs_need_fix app4 bin4 = .ok issues ∧
      issues.length = (invalidLibs bin4).length ∧
      ∀ (k : Nat) (h1 : k < (invalidLibs bin4).length) (h2 : k < issues.length),
        app4.libraries (pyName ((invalidLibs bin4).get ⟨k, h1⟩)) = none →
        issues.get ⟨k, h2⟩ =
          { cat := .libraryPath, fixable := false,
            details := "Issue with " ++ pyName ((invalidLibs bin4).get ⟨k, h1⟩)
              ++ " at " ++ strPath ((invalidLibs bin4).get ⟨k, h1⟩)
              ++ " for " ++ strPath bin4.path,
            fix := none } :=
  c4_missing_dependency_is_data app4 bin4 (by decide) (by decide)

/-- C7: every issue produced by `check_binaries` (identity, dependency,
search-path and build checks together) with the fixable flag set carries a
present repair operation. -/
theorem c7_fixable_issue_has_fix (app : OSXAPP) (del : Bool) (L : List Issue)
    (h : check_binaries app del = .ok L) :
    ∀ i ∈ L, i.fixable = true → i.fix ≠ none :=
  checkBinariesList_wf app del app.macho_binaries L h

/-- C7 witness: the fixable identity issue `app7` produces carries its
repair operation. -/
theorem c7_fixable_issue_has_fix_witness :
    ({ cat := .libraryPath, fixable := true,
       details := "Library ID with fixed path",
       fix := some (.fix_lib_id ⟨true, ["A.app", "Contents", "MacOS", "m.dylib"]⟩
         ⟨false, ["@rpath", "m.dylib"]⟩) } : Issue).fix ≠ none :=
  c7_fixable_issue_has_fix app7 true
    [({ cat := .libraryPath, fixable := true,
        details := "Library ID with fixed path",
        fix := some (.fix_lib_id ⟨true, ["A.app", "Contents", "MacOS", "m.dylib"]⟩
          ⟨false, ["@rpath", "m.dylib"]⟩) } : Issue),
     { cat := .buildMeta, fixable := true,
       details := "Missing build number.",
       fix := some (.vtool_overwrite ⟨true, ["A.app", "Contents", "MacOS", "m.dylib"]⟩
         { platform := "macos", minos := "11.0", sdk := "11.0",
           is_valid := true, can_fix := true }) }]
    (by rfl) _ (List.mem_cons_self _ _) (by rfl)

/-- C3: a search-path entry classified Unresolvable yields, with the
delete-dangling flag enabled, exactly one fixable issue whose repair is
`remove_rpath` of exactly that entry; with the flag disabled, exactly one
unfixable issue carrying no repair operation. -/
theorem c3_dangling_search_path_policy (app : OSXAPP) (b : MachOBinary)
    (pth : PyPath) (hb : b.rpaths = [pth])
    (h : fix_path_pointer app pth = .ok none) :
    check_rpaths_need_fix app b true =
      .ok [{ cat := .rcpath, fixable := true,
             details := "DELETING rpath in " ++ strPath b.path
               ++ " pointing outside of binary and allowed system paths, this may indicate build issues "
               ++ strPath pth ++ ".",
             fix := some (.remove_rpath b.path pth) }] ∧
    check_rpaths_need_fix app b false =
      .ok [{ cat := .rcpath, fixable := false,
             details := "rpath in " ++ strPath b.path
               ++ " pointing outside of binary and allowed system paths, this may indicate build issues "
               ++ strPath pth ++ ".",
             fix := none }] :=
  check_rpaths_singleton_unresolvable app b pth hb h

/-- C3 witness: the bare-name entry `libfoo.dylib` of `bin3`. -/
theorem c3_dangling_search_path_policy_witness :
    check_rpaths_need_fix app3 bin3 true =
      .ok [{ cat := .rcpath, fixable := true,
             details := "DELETING rpath in " ++ strPath bin3.path
               ++ " pointing outside of binary and allowed system paths, this may indicate build issues "
               ++ strPath pth3 ++ ".",
             fix := some (.remove_rpath bin3.path pth3) }] ∧
    check_rpaths_need_fix app3 bin3 false =
      .ok [{ cat := .rcpath, fixable := false,
             details := "rpath in " ++ strPath bin3.path
               ++ " pointing outside of binary and allowed system paths, this may indicate build issues "
               ++ strPath pth3 ++ ".",
             fix := none }] :=
  c3_dangling_search_path_policy app3 bin3 pth3 rfl (by rfl)

/-- C10: a search-path entry that is neither Allowed nor absolute resolves
to Unresolvable (`None`), and the search-path check treats it as dangling:
a deletion fix with the delete policy on, an unfixable issue otherwise. -/
theorem c10_bare_entry_unresolvable (app : OSXAPP) (b : MachOBinary)
    (pth : PyPath) (h1 : pth.absolute = false) (h2 : isAllowed pth = false)
    (hb : b.rpaths = [pth]) :
    fix_path_pointer app pth = .ok none ∧
    check_rpaths_need_fix app b true =
      .ok [{ cat := .rcpath, fixable := true,
             details := "DELETING rpath in " ++ strPath b.path
               ++ " pointing outside of binary and allowed system paths, this may indicate build issues "
               ++ strPath pth ++ ".",
             fix := some (.remove_rpath b.path pth) }] ∧
    check_rpaths_need_fix app b false =
      .ok [{ cat := .rcpath, fixable := false,
             details := "rpath in " ++ strPath b.path
               ++ " pointing outside of binary and allowed system paths, this may indicate build issues "
               ++ strPath pth ++ ".",
             fix := none }] := by
  have hfix : fix_path_pointer app pth = .ok none := by
    simp [fix_path_pointer, h1, h2]
  refine ⟨hfix, check_rpaths_singleton_unresolvable app b pth hb hfix⟩

/-- C10 witness: the bare-name entry of `bin3` inside `app3`. -/
theorem c10_bare_entry_unresolvable_witness :
    fix_path_pointer app3 pth3 = .ok none ∧
    check_rpaths_need_fix app3 bin3 true =
      .ok [{ cat := .rcpath, fixable := true,
             details := "DELETING rpath in " ++ strPath bin3.path
               ++ " pointing outside of binary and allowed system paths, this may indicate build issues "
               ++ strPath pth3 ++ ".",
             fix := some (.remove_rpath bin3.path pth3) }] ∧
    check_rpaths_need_fix app3 bin3 false =
      .ok [{ cat := .rcpath, fixable := false,
             details := "rpath in " ++ strPath bin3.path
               ++ " pointing outside of binary and allowed system paths, this may indicate build issues "
               ++ strPath pth3 ++ ".",
             fix := none }] :=
  c10_bare_entry_unresolvable app3 bin3 pth3 (by rfl) (by decide) rfl

/-- C6: a path under an OS-provided prefix or beginning with a
bundle-relative token classifies Allowed, resolution returns it unchanged,
and none of the checks emits an issue for it. -/
theorem c6_allowed_paths_pass_through (app : OSXAPP) (b : MachOBinary)
    (p : PyPath) (del : Bool)
    (h : pyIsRelativeTo p ⟨true, ["System"]⟩ = true ∨
         pyIsRelativeTo p ⟨true, ["usr"]⟩ = true ∨
         pyIsRelativeTo p ⟨true, ["Library"]⟩ = true ∨
         pyIsRelativeTo p ⟨false, ["@rpath"]⟩ = true ∨
         pyIsRelativeTo p ⟨false, ["@executable_path"]⟩ = true ∨
         pyIsRelativeTo p ⟨false, ["@loader_path"]⟩ = true) :
    isAllowed p = true ∧
    fix_path_pointer app p = .ok (some p) ∧
    check_rpaths_need_fix app { b with rpaths := [p] } del = .ok [] ∧
    check_libs_need_fix app { b with dylibs := [p] } = .ok [] ∧
    check_id_needs_fix app { b with id_ := some p } = [] := by
  have ha : isAllowed p = true := by
    simp only [isAllowed, ALLOWED_SYSTEM, ALLOWED_SPECIAL, List.append_eq,
      List.any_eq_true]
    rcases h with h | h | h | h | h | h
    · exact ⟨⟨true, ["System"]⟩, by simp, h⟩
    · exact ⟨⟨true, ["usr"]⟩, by simp, h⟩
    · exact ⟨⟨true, ["Library"]⟩, by simp, h⟩
    · exact ⟨⟨false, ["@rpath"]⟩, by simp, h⟩
    · exact ⟨⟨false, ["@executable_path"]⟩, by simp, h⟩
    · exact ⟨⟨false, ["@loader_path"]⟩, by simp, h⟩
  have hfix : fix_path_pointer app p = .ok (some p) := by
    simp [fix_path_pointer, ha]
  refine ⟨ha, hfix, ?_, ?_, ?_⟩
  · simp [check_rpaths_need_fix, exceptMap, rpathEntryIssues, hfix]
  · simp [check_libs_need_fix, invalidLibs, ha, exceptMap]
  · simp [check_id_needs_fix, ha]

/-- C6 witness: `/usr/lib/libSystem.dylib` inside `app3`/`bin3`. -/
theorem c6_allowed_paths_pass_through_witness :
    isAllowed p6 = true ∧
    fix_path_pointer app3 p6 = .ok (some p6) ∧
    check_rpaths_need_fix app3 { bin3 with rpaths := [p6] } true = .ok [] ∧
    check_libs_need_fix app3 { bin3 with dylibs := [p6] } = .ok [] ∧
    check_id_needs_fix app3 { bin3 with id_ := some p6 } = [] :=
  c6_allowed_paths_pass_through app3 bin3 p6 true (Or.inr (Or.inl (by decide)))

/-- C8: shell serialization emits, per Command in order, its comment lines
prefixed with `# `, then `cd <cwd>` when a working directory is set, then
the space-joined argument vector, then `cd -`; the three-echo scenario
serializes to exactly the three lines `echo 0`, `echo 1`, `echo 2`. -/
theorem c8_shell_serialization_shape :
    (∀ c : Command, c.to_sh =
      (match c.comment with
        | some m => if m = "" then [] else (m.splitOn "\n").map (fun l => "# " ++ l)
        | none => []) ++
      (match c.cwd with | some d => ["cd " ++ strPath d] | none => []) ++
      [String.intercalate " " c.args] ++
      (match c.cwd with | some _ => ["cd -"] | none => [])) ∧
    (∀ cs : List Command, serializeShLines cs = (cs.map Command.to_sh).flatten) ∧
    serializeShLines echoCmds = ["echo 0", "echo 1", "echo 2"] ∧
    serialize_to_sh echoCmds = "echo 0\necho 1\necho 2" := by
  refine ⟨?_, ?_, by rfl, by rfl⟩
  · rintro ⟨args, cwd, comment⟩
    cases cwd <;> cases comment <;> simp [Command.to_sh] <;> split <;> simp
  · intro cs
    simpa using serializeShLines_foldl [] cs

end AppPass
